import Mathlib

/-
Verification of the pagination helpers in
`src/google/cloud/dataproc_v1/services/workflow_template_service/pagers.py`
(`ListWorkflowTemplatesPager` and `ListWorkflowTemplatesAsyncPager`).

The embedding models the protobuf value objects as Lean structures, and the
Python generator in the `pages` property as a fuel-indexed recursive function
that returns the yielded pages, the list of request objects passed to the
call method (the call log), the final pager state, and the error raised by a
failing call, if any.  Python object identity, which matters for the
"fresh copy of the request" / "caller's request is never mutated" claims,
is modelled explicitly by an allocation id `oid` carried next to the request
value: `self._request = ListWorkflowTemplatesRequest(request)` in `__init__`
allocates a new object (a fresh `oid`), while
`self._request.page_token = ...` inside the loop mutates in place (the `oid`
is unchanged).
-/

set_option autoImplicit false

namespace DataprocPagers

/-- An item of the listed collection (`workflow_templates.WorkflowTemplate`).
Opaque to the pager; two fields stand in for its payload. -/
structure WorkflowTemplate where
  name : String
  version : Nat
deriving DecidableEq

/-- `workflow_templates.ListWorkflowTemplatesRequest`: the fields the pager
touches are `page_token` (overwritten between calls); `parent` and
`page_size` stand in for the remaining, untouched fields. -/
structure ListWorkflowTemplatesRequest where
  parent : String
  page_size : Nat
  page_token : String
deriving DecidableEq

/-- `workflow_templates.ListWorkflowTemplatesResponse`: a page holding the
repeated field `templates` and the continuation token `next_page_token`
(empty string means "no further pages"). -/
structure ListWorkflowTemplatesResponse where
  templates : List WorkflowTemplate
  next_page_token : String
deriving DecidableEq

/-- The `metadata` argument: a sequence of string pairs. -/
abbrev Metadata := List (String × String)

/-- A Python request object: an allocation id (object identity) plus the
request value.  Two objects with the same field values but different `oid`
are distinct objects; in-place mutation keeps the `oid`. -/
structure RequestObj where
  oid : Nat
  val : ListWorkflowTemplatesRequest
deriving DecidableEq

/-- The injected call method (`self._method`): takes the request value and
the metadata, returns a response or raises an error of type `E`. -/
def Method (E : Type) : Type :=
  ListWorkflowTemplatesRequest → Metadata → Except E ListWorkflowTemplatesResponse

/-- The mutable state held by a pager: `self._request` (a request object)
and `self._response` (the current response).  `self._method` and
`self._metadata` are set once in `__init__` and never change, so they are
passed as parameters instead. -/
structure PagerState where
  _request : RequestObj
  _response : ListWorkflowTemplatesResponse
deriving DecidableEq

/-- `__init__` of both pagers:
`self._request = workflow_templates.ListWorkflowTemplatesRequest(request)`
copy-constructs the caller's request into a new object (fresh `oid`,
same field values) and `self._response = response` stores the initial
response. -/
def pagerInit (request : RequestObj) (response : ListWorkflowTemplatesResponse)
    (freshOid : Nat) : PagerState :=
  { _request := { oid := freshOid, val := request.val }, _response := response }

/-- `self._request.page_token = t` writes only the token field. -/
def withToken (req : ListWorkflowTemplatesRequest) (t : String) :
    ListWorkflowTemplatesRequest :=
  { req with page_token := t }

/-- The `while` loop of the `pages` generator (sync pager):

    while self._response.next_page_token:
        self._request.page_token = self._response.next_page_token
        self._response = self._method(self._request, metadata=self._metadata)
        yield self._response

Returns `(yielded pages, requests passed to the method, final state,
raised error)`.  `fuel` bounds the number of loop iterations: a run with
`fuel = k` is the generator advanced through at most `k` fetches. -/
def pagesLoop {E : Type} (method : Method E) (metadata : Metadata) :
    Nat → PagerState →
    List ListWorkflowTemplatesResponse × List RequestObj × PagerState × Option E
  | 0, st => ([], [], st, none)
  | fuel + 1, st =>
    if st._response.next_page_token = "" then
      ([], [], st, none)
    else
      let req2 : RequestObj :=
        { st._request with
          val := withToken st._request.val st._response.next_page_token }
      match method req2.val metadata with
      | .error e => ([], [req2], { st with _request := req2 }, some e)
      | .ok r =>
        let rec2 := pagesLoop method metadata fuel { _request := req2, _response := r }
        (r :: rec2.1, req2 :: rec2.2.1, rec2.2.2.1, rec2.2.2.2)

/-- The `pages` property of the sync pager: the generator first yields
`self._response`, then runs the `while` loop. -/
def pages {E : Type} (method : Method E) (metadata : Metadata) (fuel : Nat)
    (st : PagerState) :
    List ListWorkflowTemplatesResponse × List RequestObj × PagerState × Option E :=
  let rec2 := pagesLoop method metadata fuel st
  (st._response :: rec2.1, rec2.2.1, rec2.2.2.1, rec2.2.2.2)

/-- `__iter__` of the sync pager:

    for page in self.pages:
        yield from page.templates

The items it yields are the in-order concatenation of the `templates`
fields of the pages yielded by `pages`. -/
def pagerIter {E : Type} (method : Method E) (metadata : Metadata) (fuel : Nat)
    (st : PagerState) : List WorkflowTemplate :=
  ((pages method metadata fuel st).1.map
    (fun page => page.templates)).flatten

/-- `__getattr__` of both pagers: `return getattr(self._response, name)` —
an attribute lookup that misses the pager's own interface is answered by
the current response. -/
def pagerGetattr {α : Type} (st : PagerState)
    (attr : ListWorkflowTemplatesResponse → α) : α :=
  attr st._response

/-- The `while` loop of the async `pages` generator
(`ListWorkflowTemplatesAsyncPager.pages`).  The body is that of the sync
loop with `self._response = await self._method(...)`: awaiting the
call's result is modelled as inspecting the resolved `Except` value, a
rejection being the error case. -/
def asyncPagesLoop {E : Type} (method : Method E) (metadata : Metadata) :
    Nat → PagerState →
    List ListWorkflowTemplatesResponse × List RequestObj × PagerState × Option E
  | 0, st => ([], [], st, none)
  | fuel + 1, st =>
    if st._response.next_page_token = "" then
      ([], [], st, none)
    else
      let req2 : RequestObj :=
        { st._request with
          val := withToken st._request.val st._response.next_page_token }
      match method req2.val metadata with
      | .error e => ([], [req2], { st with _request := req2 }, some e)
      | .ok r =>
        let rec2 := asyncPagesLoop method metadata fuel { _request := req2, _response := r }
        (r :: rec2.1, req2 :: rec2.2.1, rec2.2.2.1, rec2.2.2.2)

/-- The async `pages` property: yield `self._response`, then run the loop. -/
def asyncPages {E : Type} (method : Method E) (metadata : Metadata) (fuel : Nat)
    (st : PagerState) :
    List ListWorkflowTemplatesResponse × List RequestObj × PagerState × Option E :=
  let rec2 := asyncPagesLoop method metadata fuel st
  (st._response :: rec2.1, rec2.2.1, rec2.2.2.1, rec2.2.2.2)

/-- `__aiter__` of the async pager:

    async for page in self.pages:
        for response in page.templates:
            yield response
-/
def asyncPagerIter {E : Type} (method : Method E) (metadata : Metadata) (fuel : Nat)
    (st : PagerState) : List WorkflowTemplate :=
  ((asyncPages method metadata fuel st).1.map
    (fun page => page.templates)).flatten

/-- `isChain method metadata parentReq r rest = true` says that the scripted
call method drives a complete token chain from current response `r` through
the successive responses `rest`: every response before the last has a
non-empty `next_page_token`, fetching `parentReq` with that token yields the
next response, and the last response of `r :: rest` has an empty token. -/
def isChain {E : Type} [DecidableEq E] (method : Method E) (metadata : Metadata)
    (parentReq : ListWorkflowTemplatesRequest) :
    ListWorkflowTemplatesResponse → List ListWorkflowTemplatesResponse → Bool
  | r, [] => decide (r.next_page_token = "")
  | r, r2 :: rest =>
    !(decide (r.next_page_token = "")) &&
    (match method (withToken parentReq r.next_page_token) metadata with
     | .ok r3 => decide (r3 = r2)
     | .error _ => false) &&
    isChain method metadata parentReq r2 rest

/-- `isChainThenError method metadata parentReq e r rest = true` says the
scripted call method drives a successful token chain from `r` through
`rest`, every response of `r :: rest` has a non-empty token, and the fetch
after the last response of `r :: rest` raises `e`. -/
def isChainThenError {E : Type} [DecidableEq E] (method : Method E)
    (metadata : Metadata) (parentReq : ListWorkflowTemplatesRequest) (e : E) :
    ListWorkflowTemplatesResponse → List ListWorkflowTemplatesResponse → Bool
  | r, [] =>
    !(decide (r.next_page_token = "")) &&
    (match method (withToken parentReq r.next_page_token) metadata with
     | .ok _ => false
     | .error e2 => decide (e2 = e))
  | r, r2 :: rest =>
    !(decide (r.next_page_token = "")) &&
    (match method (withToken parentReq r.next_page_token) metadata with
     | .ok r3 => decide (r3 = r2)
     | .error _ => false) &&
    isChainThenError method metadata parentReq e r2 rest

/-- The request objects a chain run passes to the call method: all carry the
same object id `oid` (the pager's single held request copy), and the value
is the parent request with only the token overridden — the token of the
response held just before each fetch. -/
def chainLog (oid : Nat) (parentReq : ListWorkflowTemplatesRequest) :
    ListWorkflowTemplatesResponse → List ListWorkflowTemplatesResponse →
    List RequestObj
  | _, [] => []
  | r, r2 :: rest =>
    { oid := oid, val := withToken parentReq r.next_page_token } ::
      chainLog oid parentReq r2 rest

/-! ### Helper lemmas -/

theorem withToken_withToken (req : ListWorkflowTemplatesRequest) (a t : String) :
    withToken (withToken req a) t = withToken req t := rfl

/-- A pager holding a response with an empty continuation token yields no
further page, calls the method zero times, and leaves the state unchanged. -/
theorem pagesLoop_empty_token {E : Type} (method : Method E) (metadata : Metadata)
    (fuel : Nat) (st : PagerState) (h : st._response.next_page_token = "") :
    pagesLoop method metadata fuel st = ([], [], st, none) := by
  cases fuel with
  | zero => rfl
  | succ n => simp [pagesLoop, h]

/-- A complete run over a scripted chain: the loop yields exactly the chain,
passes exactly the chain's requests (all on the single held request object),
finishes holding the last request object and the last response, and raises
no error. -/
theorem pagesLoop_of_isChain {E : Type} [DecidableEq E] (method : Method E)
    (metadata : Metadata) (parentReq : ListWorkflowTemplatesRequest)
    (rest : List ListWorkflowTemplatesResponse) :
    ∀ (fuel : Nat) (st : PagerState),
    (∀ t, withToken st._request.val t = withToken parentReq t) →
    isChain method metadata parentReq st._response rest = true →
    rest.length ≤ fuel →
    pagesLoop method metadata fuel st =
      (rest, chainLog st._request.oid parentReq st._response rest,
       { _request :=
           (chainLog st._request.oid parentReq st._response rest).getLastD st._request,
         _response := rest.getLastD st._response },
       none) := by
  induction rest with
  | nil =>
    intro fuel st hwt hch _
    have htok : st._response.next_page_token = "" := by
      simpa [isChain] using hch
    simp [pagesLoop_empty_token method metadata fuel st htok, chainLog]
  | cons r2 rest ih =>
    intro fuel st hwt hch hf
    cases fuel with
    | zero => exact absurd hf (by simp)
    | succ n =>
      simp only [isChain, Bool.and_eq_true, Bool.not_eq_eq_eq_not, Bool.not_true,
        decide_eq_false_iff_not] at hch
      obtain ⟨⟨h1, h2⟩, h3⟩ := hch
      cases hm : method (withToken parentReq st._response.next_page_token) metadata with
      | error e => rw [hm] at h2; exact absurd h2 (by simp)
      | ok r3 =>
        rw [hm] at h2
        have hr3 : r3 = r2 := by simpa using h2
        rw [hr3] at hm
        have hreq : withToken st._request.val st._response.next_page_token =
            withToken parentReq st._response.next_page_token := hwt _
        have ihx := ih n
          { _request := { st._request with
              val := withToken st._request.val st._response.next_page_token },
            _response := r2 }
          (fun t => by rw [withToken_withToken]; exact hwt t) h3
          (Nat.le_of_succ_le_succ hf)
        simp only [hreq] at ihx
        simp only [pagesLoop, if_neg h1, hreq, hm, chainLog, List.getLastD_cons]
        simp [ihx, List.getLastD_eq_getLast?]
/-- A run stopped after `k ≤ length` fetches over a scripted chain: the loop
has yielded exactly the first `k` responses of the chain, passed exactly the
first `k` requests, and currently holds the `k`-th request object and the
`k`-th fetched response. -/
theorem pagesLoop_take_of_isChain {E : Type} [DecidableEq E] (method : Method E)
    (metadata : Metadata) (parentReq : ListWorkflowTemplatesRequest)
    (rest : List ListWorkflowTemplatesResponse) :
    ∀ (k : Nat) (st : PagerState),
    (∀ t, withToken st._request.val t = withToken parentReq t) →
    isChain method metadata parentReq st._response rest = true →
    k ≤ rest.length →
    pagesLoop method metadata k st =
      (rest.take k,
       chainLog st._request.oid parentReq st._response (rest.take k),
       { _request :=
           (chainLog st._request.oid parentReq st._response (rest.take k)).getLastD
             st._request,
         _response := (rest.take k).getLastD st._response },
       none) := by
  induction rest with
  | nil =>
    intro k st hwt hch hk
    have hk0 : k = 0 := Nat.le_zero.mp hk
    subst hk0
    simp [pagesLoop, chainLog]
  | cons r2 rest ih =>
    intro k st hwt hch hk
    cases k with
    | zero => simp [pagesLoop, chainLog]
    | succ j =>
      simp only [isChain, Bool.and_eq_true, Bool.not_eq_eq_eq_not, Bool.not_true,
        decide_eq_false_iff_not] at hch
      obtain ⟨⟨h1, h2⟩, h3⟩ := hch
      cases hm : method (withToken parentReq st._response.next_page_token) metadata with
      | error e => rw [hm] at h2; exact absurd h2 (by simp)
      | ok r3 =>
        rw [hm] at h2
        have hr3 : r3 = r2 := by simpa using h2
        rw [hr3] at hm
        have hreq : withToken st._request.val st._response.next_page_token =
            withToken parentReq st._response.next_page_token := hwt _
        have ihx := ih j
          { _request := { st._request with
              val := withToken st._request.val st._response.next_page_token },
            _response := r2 }
          (fun t => by rw [withToken_withToken]; exact hwt t) h3
          (Nat.le_of_succ_le_succ hk)
        simp only [hreq] at ihx
        simp only [pagesLoop, if_neg h1, hreq, hm, chainLog, List.take_succ_cons,
          List.getLastD_cons]
        simp [ihx, List.getLastD_eq_getLast?]

/-- A run over a scripted chain whose next fetch fails: the loop yields the
successful chain, attempts the failing fetch exactly once (it appears last in
the call log), leaves the failing request and the last good response in the
state, and surfaces the error unmodified. -/
theorem pagesLoop_of_isChainThenError {E : Type} [DecidableEq E] (method : Method E)
    (metadata : Metadata) (parentReq : ListWorkflowTemplatesRequest) (e : E)
    (rest : List ListWorkflowTemplatesResponse) :
    ∀ (fuel : Nat) (st : PagerState),
    (∀ t, withToken st._request.val t = withToken parentReq t) →
    isChainThenError method metadata parentReq e st._response rest = true →
    rest.length < fuel →
    pagesLoop method metadata fuel st =
      (rest,
       chainLog st._request.oid parentReq st._response rest ++
         [{ oid := st._request.oid,
            val := withToken parentReq (rest.getLastD st._response).next_page_token }],
       { _request :=
           { oid := st._request.oid,
             val := withToken parentReq (rest.getLastD st._response).next_page_token },
         _response := rest.getLastD st._response },
       some e) := by
  induction rest with
  | nil =>
    intro fuel st hwt hch hf
    cases fuel with
    | zero => exact absurd hf (by simp)
    | succ n =>
      simp only [isChainThenError, Bool.and_eq_true, Bool.not_eq_eq_eq_not,
        Bool.not_true, decide_eq_false_iff_not] at hch
      obtain ⟨h1, h2⟩ := hch
      cases hm : method (withToken parentReq st._response.next_page_token) metadata with
      | ok r3 => rw [hm] at h2; exact absurd h2 (by simp)
      | error e2 =>
        rw [hm] at h2
        have he2 : e2 = e := by simpa using h2
        rw [he2] at hm
        have hreq : withToken st._request.val st._response.next_page_token =
            withToken parentReq st._response.next_page_token := hwt _
        simp [pagesLoop, if_neg h1, hreq, hm, chainLog]
  | cons r2 rest ih =>
    intro fuel st hwt hch hf
    cases fuel with
    | zero => exact absurd hf (by simp)
    | succ n =>
      simp only [isChainThenError, Bool.and_eq_true, Bool.not_eq_eq_eq_not,
        Bool.not_true, decide_eq_false_iff_not] at hch
      obtain ⟨⟨h1, h2⟩, h3⟩ := hch
      cases hm : method (withToken parentReq st._response.next_page_token) metadata with
      | error e2 => rw [hm] at h2; exact absurd h2 (by simp)
      | ok r3 =>
        rw [hm] at h2
        have hr3 : r3 = r2 := by simpa using h2
        rw [hr3] at hm
        have hreq : withToken st._request.val st._response.next_page_token =
            withToken parentReq st._response.next_page_token := hwt _
        have ihx := ih n
          { _request := { st._request with
              val := withToken st._request.val st._response.next_page_token },
            _response := r2 }
          (fun t => by rw [withToken_withToken]; exact hwt t) h3
          (Nat.lt_of_succ_lt_succ hf)
        simp only [hreq] at ihx
        simp only [pagesLoop, if_neg h1, hreq, hm, chainLog, List.getLastD_cons]
        simp [ihx, List.getLastD_eq_getLast?]

/-- The last response of a complete chain has an empty continuation token. -/
theorem isChain_last_token_empty {E : Type} [DecidableEq E] (method : Method E)
    (metadata : Metadata) (parentReq : ListWorkflowTemplatesRequest)
    (rest : List ListWorkflowTemplatesResponse) :
    ∀ (r : ListWorkflowTemplatesResponse),
    isChain method metadata parentReq r rest = true →
    (rest.getLastD r).next_page_token = "" := by
  induction rest with
  | nil => intro r hch; simpa [isChain] using hch
  | cons r2 rest ih =>
    intro r hch
    simp only [isChain, Bool.and_eq_true] at hch
    rw [List.getLastD_cons]
    exact ih r2 hch.2

/-- The async loop computes exactly what the sync loop computes. -/
theorem asyncPagesLoop_eq_pagesLoop {E : Type} (method : Method E)
    (metadata : Metadata) :
    ∀ (fuel : Nat) (st : PagerState),
    asyncPagesLoop method metadata fuel st = pagesLoop method metadata fuel st := by
  intro fuel
  induction fuel with
  | zero => intro st; rfl
  | succ n ih =>
    intro st
    simp only [asyncPagesLoop, pagesLoop, ih]

/-- Whatever the scripted method does, every request object the loop passes
to it, and the request object the loop finishes with, carry the object id of
the single request copy held at the start: the loop allocates no new request
object. -/
theorem pagesLoop_oid_invariant {E : Type} (method : Method E) (metadata : Metadata) :
    ∀ (fuel : Nat) (st : PagerState),
    ((pagesLoop method metadata fuel st).2.2.1._request.oid = st._request.oid) ∧
    ∀ q ∈ (pagesLoop method metadata fuel st).2.1, q.oid = st._request.oid := by
  intro fuel
  induction fuel with
  | zero => intro st; exact ⟨rfl, by simp [pagesLoop]⟩
  | succ n ih =>
    intro st
    by_cases h : st._response.next_page_token = ""
    · simp [pagesLoop, h]
    · cases hm : method (withToken st._request.val st._response.next_page_token)
        metadata with
      | error e => simp [pagesLoop, h, hm]
      | ok r =>
        have ihx := ih
          { _request := { st._request with
              val := withToken st._request.val st._response.next_page_token },
            _response := r }
        simp only [pagesLoop, if_neg h, hm]
        constructor
        · exact ihx.1
        · intro q hq
          simp only [List.mem_cons] at hq
          cases hq with
          | inl hq => rw [hq]
          | inr hq => exact ihx.2 q hq

/-- Every entry of a chain's call log carries the given object id, and its
value is the parent request with only the token field overridden. -/
theorem chainLog_mem (oid : Nat) (parentReq : ListWorkflowTemplatesRequest) :
    ∀ (rest : List ListWorkflowTemplatesResponse)
      (r : ListWorkflowTemplatesResponse),
    ∀ q ∈ chainLog oid parentReq r rest,
    q.oid = oid ∧ ∃ t, q.val = withToken parentReq t := by
  intro rest
  induction rest with
  | nil => intro r q hq; simp [chainLog] at hq
  | cons r2 rest ih =>
    intro r q hq
    simp only [chainLog, List.mem_cons] at hq
    cases hq with
    | inl hq => exact ⟨by rw [hq], ⟨r.next_page_token, by rw [hq]⟩⟩
    | inr hq => exact ih r2 q hq

/-! ### A concrete scripted run, used as witness data

Four pages chained by tokens `"abc" → "def" → "ghi" → ""`, carrying
`3, 0, 1, 2` templates respectively. -/

def demoReq : ListWorkflowTemplatesRequest :=
  { parent := "projects/p/regions/r", page_size := 10, page_token := "" }

def demoPage1 : ListWorkflowTemplatesResponse :=
  { templates := [⟨"t1", 1⟩, ⟨"t2", 1⟩, ⟨"t3", 1⟩], next_page_token := "abc" }

def demoPage2 : ListWorkflowTemplatesResponse :=
  { templates := [], next_page_token := "def" }

def demoPage3 : ListWorkflowTemplatesResponse :=
  { templates := [⟨"t4", 1⟩], next_page_token := "ghi" }

def demoPage4 : ListWorkflowTemplatesResponse :=
  { templates := [⟨"t5", 1⟩, ⟨"t6", 1⟩], next_page_token := "" }

/-- A scripted call method answering each continuation token of the demo
chain with the next page, failing on any other token. -/
def demoMethod : Method String := fun req _ =>
  if req.page_token = "abc" then .ok demoPage2
  else if req.page_token = "def" then .ok demoPage3
  else if req.page_token = "ghi" then .ok demoPage4
  else .error "bad token"

def demoMetadata : Metadata := [("x-goog-request-params", "parent=projects/p/regions/r")]

/-- The caller's request object (object id 0). -/
def demoCallerReq : RequestObj := { oid := 0, val := demoReq }

/-- A pager constructed from the demo data; the private request copy gets
object id 1. -/
def demoState : PagerState := pagerInit demoCallerReq demoPage1 1

/-- A scripted call method whose second fetch (token `"def"`) fails. -/
def demoFailMethod : Method String := fun req _ =>
  if req.page_token = "abc" then .ok demoPage2
  else if req.page_token = "def" then .error "unavailable"
  else .error "bad token"

/-- A chain's call log has one entry per fetched page. -/
theorem chainLog_length (oid : Nat) (parentReq : ListWorkflowTemplatesRequest) :
    ∀ (rest : List ListWorkflowTemplatesResponse)
      (r : ListWorkflowTemplatesResponse),
    (chainLog oid parentReq r rest).length = rest.length := by
  intro rest
  induction rest with
  | nil => intro r; rfl
  | cons r2 rest ih => intro r; simp [chainLog, ih r2]

/-! ### Claims -/

/-- C1: the sync pager's `pages` sequence follows the source algorithm —
yield the held response; while the current response's continuation token is
non-empty, set that token on the held request, invoke the call method with
the construction-time metadata, replace the current response with the
result, and yield it; terminate exactly when the token is empty.  Over a
scripted chain, `pages` yields the initial response followed by the whole
chain, raises no error, and the last yielded page has an empty token. -/
theorem C1_pages_follow_chain {E : Type} [DecidableEq E] (method : Method E)
    (metadata : Metadata) (request : RequestObj)
    (r0 : ListWorkflowTemplatesResponse) (freshOid : Nat)
    (rest : List ListWorkflowTemplatesResponse) (fuel : Nat)
    (hch : isChain method metadata request.val r0 rest = true)
    (hf : rest.length ≤ fuel) :
    (pages method metadata fuel (pagerInit request r0 freshOid)).1 = r0 :: rest ∧
    (pages method metadata fuel (pagerInit request r0 freshOid)).2.2.2 = none ∧
    ((r0 :: rest).getLastD r0).next_page_token = "" := by
  have hrun := pagesLoop_of_isChain method metadata request.val rest fuel
    (pagerInit request r0 freshOid) (fun t => rfl) hch hf
  simp only [pagerInit] at hrun
  refine ⟨?_, ?_, ?_⟩
  · simp [pages, pagerInit, hrun]
  · simp [pages, pagerInit, hrun]
  · rw [List.getLastD_cons]
    exact isChain_last_token_empty method metadata request.val rest r0 hch

/-- Witness for C1: the demo chain of tokens `"abc"`, `"def"`, `"ghi"`,
`""` yields exactly 4 pages in order, and the 4th has an empty token. -/
theorem C1_pages_follow_chain_witness :
    (pages demoMethod demoMetadata 5 demoState).1 =
      [demoPage1, demoPage2, demoPage3, demoPage4] ∧
    (pages demoMethod demoMetadata 5 demoState).1.length = 4 ∧
    demoPage4.next_page_token = "" ∧
    (pages demoMethod demoMetadata 5 demoState).2.2.2 = none := by
  have h := C1_pages_follow_chain demoMethod demoMetadata demoCallerReq demoPage1 1
    [demoPage2, demoPage3, demoPage4] 5 (by decide) (by decide)
  exact ⟨h.1, by decide, rfl, h.2.1⟩

/-- C2: iterating the pager itself yields exactly the concatenation, in
page order, of each yielded page's `templates` sequence, item order within
a page preserved. -/
theorem C2_iter_flattens_pages {E : Type} [DecidableEq E] (method : Method E)
    (metadata : Metadata) (request : RequestObj)
    (r0 : ListWorkflowTemplatesResponse) (freshOid : Nat)
    (rest : List ListWorkflowTemplatesResponse) (fuel : Nat)
    (hch : isChain method metadata request.val r0 rest = true)
    (hf : rest.length ≤ fuel) :
    pagerIter method metadata fuel (pagerInit request r0 freshOid) =
      ((r0 :: rest).map (fun page => page.templates)).flatten := by
  have hrun := pagesLoop_of_isChain method metadata request.val rest fuel
    (pagerInit request r0 freshOid) (fun t => rfl) hch hf
  simp only [pagerInit] at hrun
  simp [pagerIter, pages, pagerInit, hrun]

/-- Witness for C2: over the demo chain with item counts `[3, 0, 1, 2]`,
flattened iteration yields exactly 6 items, in page order then within-page
order (the empty page contributes nothing without ending iteration). -/
theorem C2_iter_flattens_pages_witness :
    ((pages demoMethod demoMetadata 5 demoState).1.map
      (fun page => page.templates.length)) = [3, 0, 1, 2] ∧
    pagerIter demoMethod demoMetadata 5 demoState =
      [⟨"t1", 1⟩, ⟨"t2", 1⟩, ⟨"t3", 1⟩, ⟨"t4", 1⟩, ⟨"t5", 1⟩, ⟨"t6", 1⟩] ∧
    (pagerIter demoMethod demoMetadata 5 demoState).length = 6 := by
  have h := C2_iter_flattens_pages demoMethod demoMetadata demoCallerReq demoPage1 1
    [demoPage2, demoPage3, demoPage4] 5 (by decide) (by decide)
  exact ⟨by decide, h.trans (by decide), by decide⟩

/-- C3: if the call method fails on the Nth fetch, the consumer observes
exactly the pages (and the items) of fetches 1..N-1 before the failure: the
yielded pages are the initial response plus the N-1 successful fetches, the
error surfaces unmodified, exactly N fetch attempts were made (no retry),
and the flattened items are those of the yielded pages only — nothing from
a never-fetched page. -/
theorem C3_error_propagates_after_good_pages {E : Type} [DecidableEq E]
    (method : Method E) (metadata : Metadata) (request : RequestObj)
    (r0 : ListWorkflowTemplatesResponse) (freshOid : Nat) (e : E)
    (rest : List ListWorkflowTemplatesResponse) (fuel : Nat)
    (hch : isChainThenError method metadata request.val e r0 rest = true)
    (hf : rest.length < fuel) :
    (pages method metadata fuel (pagerInit request r0 freshOid)).1 = r0 :: rest ∧
    (pages method metadata fuel (pagerInit request r0 freshOid)).2.2.2 = some e ∧
    (pages method metadata fuel (pagerInit request r0 freshOid)).2.1.length =
      rest.length + 1 ∧
    pagerIter method metadata fuel (pagerInit request r0 freshOid) =
      ((r0 :: rest).map (fun page => page.templates)).flatten := by
  have hrun := pagesLoop_of_isChainThenError method metadata request.val e rest fuel
    (pagerInit request r0 freshOid) (fun t => rfl) hch hf
  simp only [pagerInit] at hrun
  refine ⟨?_, ?_, ?_, ?_⟩
  · simp [pages, pagerInit, hrun]
  · simp [pages, pagerInit, hrun]
  · simp [pages, pagerInit, hrun, chainLog_length]
  · simp [pagerIter, pages, pagerInit, hrun]

/-- Witness for C3: with the demo method failing on the second fetch
(token `"def"`), the consumer sees the initial page and the first fetched
page, then the error `"unavailable"` unmodified, after exactly 2 fetch
attempts; no item of the never-fetched pages appears. -/
theorem C3_error_propagates_after_good_pages_witness :
    (pages demoFailMethod demoMetadata 5 demoState).1 = [demoPage1, demoPage2] ∧
    (pages demoFailMethod demoMetadata 5 demoState).2.2.2 = some "unavailable" ∧
    (pages demoFailMethod demoMetadata 5 demoState).2.1.length = 2 ∧
    pagerIter demoFailMethod demoMetadata 5 demoState =
      [⟨"t1", 1⟩, ⟨"t2", 1⟩, ⟨"t3", 1⟩] := by
  have h := C3_error_propagates_after_good_pages demoFailMethod demoMetadata
    demoCallerReq demoPage1 1 "unavailable" [demoPage2] 5 (by decide) (by decide)
  exact ⟨h.1, h.2.1, h.2.2.1, h.2.2.2.trans (by decide)⟩

/-- C4, counterexample: it is false that each subsequent call receives a
distinct newly copied request object.  On the demo chain the three fetches
all receive the pager's single held request object (object id 1): the call
log's object ids are not pairwise distinct, and none differs from the held
request's id. -/
theorem C4_fresh_copy_counterexample :
    ¬ (List.Pairwise (fun a b => a ≠ b)
         ((pages demoMethod demoMetadata 5 demoState).2.1.map RequestObj.oid) ∧
       ∀ q ∈ (pages demoMethod demoMetadata 5 demoState).2.1,
         q.oid ≠ demoState._request.oid) := by
  decide

/-- C4, amended: on every advance the continuation token is written in
place to the pager's single private request copy made at construction, and
that same object — identity unchanged, value equal to the original request
with only `page_token` overridden — is what each call receives. -/
theorem C4_same_request_object_reused {E : Type} [DecidableEq E]
    (method : Method E) (metadata : Metadata) (request : RequestObj)
    (r0 : ListWorkflowTemplatesResponse) (freshOid : Nat)
    (rest : List ListWorkflowTemplatesResponse) (fuel : Nat)
    (hch : isChain method metadata request.val r0 rest = true)
    (hf : rest.length ≤ fuel) :
    (pages method metadata fuel (pagerInit request r0 freshOid)).2.1 =
      chainLog freshOid request.val r0 rest ∧
    ∀ q ∈ (pages method metadata fuel (pagerInit request r0 freshOid)).2.1,
      q.oid = freshOid ∧ ∃ t, q.val = withToken request.val t := by
  have hrun := pagesLoop_of_isChain method metadata request.val rest fuel
    (pagerInit request r0 freshOid) (fun t => rfl) hch hf
  simp only [pagerInit] at hrun
  have hlog : (pages method metadata fuel (pagerInit request r0 freshOid)).2.1 =
      chainLog freshOid request.val r0 rest := by
    simp [pages, pagerInit, hrun]
  refine ⟨hlog, ?_⟩
  intro q hq
  rw [hlog] at hq
  exact chainLog_mem freshOid request.val rest r0 q hq

/-- Witness for C4's amended statement: on the demo chain all three calls
receive object id 1 (the construction-time copy) carrying the original
request with only the token overridden. -/
theorem C4_same_request_object_reused_witness :
    (pages demoMethod demoMetadata 5 demoState).2.1 =
      [{ oid := 1, val := withToken demoReq "abc" },
       { oid := 1, val := withToken demoReq "def" },
       { oid := 1, val := withToken demoReq "ghi" }] ∧
    ∀ q ∈ (pages demoMethod demoMetadata 5 demoState).2.1, q.oid = 1 := by
  have h := C4_same_request_object_reused demoMethod demoMetadata demoCallerReq
    demoPage1 1 [demoPage2, demoPage3, demoPage4] 5 (by decide) (by decide)
  exact ⟨h.1.trans (by decide), fun q hq => (h.2 q hq).1⟩

/-- C5: given the same call results, initial request, initial response and
metadata, the async pager and the sync pager produce identical page
sequences, identical call logs, identical final states and errors, and
identical flattened item sequences. -/
theorem C5_async_sync_equal {E : Type} (method : Method E) (metadata : Metadata)
    (fuel : Nat) (st : PagerState) :
    asyncPages method metadata fuel st = pages method metadata fuel st ∧
    asyncPagerIter method metadata fuel st = pagerIter method metadata fuel st := by
  have h := asyncPagesLoop_eq_pagesLoop method metadata fuel st
  constructor
  · simp [asyncPages, pages, h]
  · simp [asyncPagerIter, pagerIter, asyncPages, pages, h]

/-- C6: at every point of the iteration — after any number `k` of advances —
an attribute lookup that misses the pager's own interface returns that
attribute of the currently held response, which is the most recently
yielded page. -/
theorem C6_getattr_delegates_to_current_page {E : Type} [DecidableEq E]
    {α : Type} (method : Method E) (metadata : Metadata) (request : RequestObj)
    (r0 : ListWorkflowTemplatesResponse) (freshOid : Nat)
    (rest : List ListWorkflowTemplatesResponse) (k : Nat)
    (attr : ListWorkflowTemplatesResponse → α)
    (hch : isChain method metadata request.val r0 rest = true)
    (hk : k ≤ rest.length) :
    pagerGetattr (pages method metadata k (pagerInit request r0 freshOid)).2.2.1
        attr =
      attr ((pages method metadata k (pagerInit request r0 freshOid)).1.getLastD
        r0) := by
  have hrun := pagesLoop_take_of_isChain method metadata request.val rest k
    (pagerInit request r0 freshOid) (fun t => rfl) hch hk
  simp only [pagerInit] at hrun
  simp only [pages, pagerInit, pagerGetattr, hrun]
  rw [List.getLastD_cons]

/-- Witness for C6: after 2 advances on the demo chain the pager delegates
`next_page_token` to the current page, `demoPage3`, whose token is
`"ghi"`. -/
theorem C6_getattr_delegates_to_current_page_witness :
    pagerGetattr (pages demoMethod demoMetadata 2 demoState).2.2.1
        (fun r => r.next_page_token) = "ghi" ∧
    (pages demoMethod demoMetadata 2 demoState).2.2.1._response = demoPage3 := by
  have h := C6_getattr_delegates_to_current_page demoMethod demoMetadata
    demoCallerReq demoPage1 1 [demoPage2, demoPage3, demoPage4] 2
    (fun r => r.next_page_token) (by decide) (by decide)
  exact ⟨h.trans (by decide), by decide⟩

/-- C7: the pager's whole retained state after any number `k` of advances is
exactly one request object and the single most recently fetched response —
each advance replaces the held response with the newly fetched page, and no
previously yielded page is cached. -/
theorem C7_state_is_single_current_response {E : Type} [DecidableEq E]
    (method : Method E) (metadata : Metadata) (request : RequestObj)
    (r0 : ListWorkflowTemplatesResponse) (freshOid : Nat)
    (rest : List ListWorkflowTemplatesResponse) (k : Nat)
    (hch : isChain method metadata request.val r0 rest = true)
    (hk : k ≤ rest.length) :
    (pages method metadata k (pagerInit request r0 freshOid)).2.2.1 =
      { _request :=
          (chainLog freshOid request.val r0 (rest.take k)).getLastD
            { oid := freshOid, val := request.val },
        _response := (rest.take k).getLastD r0 } ∧
    (rest.take k).getLastD r0 =
      (pages method metadata k (pagerInit request r0 freshOid)).1.getLastD r0 := by
  have hrun := pagesLoop_take_of_isChain method metadata request.val rest k
    (pagerInit request r0 freshOid) (fun t => rfl) hch hk
  simp only [pagerInit] at hrun
  constructor
  · simp [pages, pagerInit, hrun]
  · simp only [pages, pagerInit, hrun]
    rw [List.getLastD_cons]

/-- Witness for C7: after 2 advances on the demo chain the whole state is
the single request object (id 1, token `"def"`) and the single current
response `demoPage3`. -/
theorem C7_state_is_single_current_response_witness :
    (pages demoMethod demoMetadata 2 demoState).2.2.1 =
      { _request := { oid := 1, val := withToken demoReq "def" },
        _response := demoPage3 } := by
  have h := C7_state_is_single_current_response demoMethod demoMetadata
    demoCallerReq demoPage1 1 [demoPage2, demoPage3, demoPage4] 2
    (by decide) (by decide)
  exact h.1.trans (by decide)

/-- C8: constructed with a single initial response whose continuation token
is empty, the pager's `pages` yields exactly that one response, the
flattened item sequence is exactly that response's items, and the call
method is never invoked (empty call log), with no error. -/
theorem C8_single_empty_token_page {E : Type} (method : Method E)
    (metadata : Metadata) (fuel : Nat) (request : RequestObj)
    (r0 : ListWorkflowTemplatesResponse)
    (freshOid : Nat) (h : r0.next_page_token = "") :
    (pages method metadata fuel (pagerInit request r0 freshOid)).1 = [r0] ∧
    (pages method metadata fuel (pagerInit request r0 freshOid)).2.1 = [] ∧
    (pages method metadata fuel (pagerInit request r0 freshOid)).2.2.2 = none ∧
    pagerIter method metadata fuel (pagerInit request r0 freshOid) =
      r0.templates := by
  have hrun := pagesLoop_empty_token method metadata fuel
    (pagerInit request r0 freshOid) h
  simp only [pagerInit] at hrun
  refine ⟨?_, ?_, ?_, ?_⟩ <;> simp [pages, pagerIter, pagerInit, hrun]

/-- Witness for C8: a pager holding only `demoPage4` (empty token) yields
exactly that page and its 2 items, calling the method zero times. -/
theorem C8_single_empty_token_page_witness :
    (pages demoMethod demoMetadata 7 (pagerInit demoCallerReq demoPage4 1)).1 =
      [demoPage4] ∧
    (pages demoMethod demoMetadata 7 (pagerInit demoCallerReq demoPage4 1)).2.1 =
      [] ∧
    pagerIter demoMethod demoMetadata 7 (pagerInit demoCallerReq demoPage4 1) =
      [⟨"t5", 1⟩, ⟨"t6", 1⟩] := by
  have h := C8_single_empty_token_page demoMethod demoMetadata 7 demoCallerReq
    demoPage4 1 (by decide)
  exact ⟨h.1, h.2.1, h.2.2.2.trans (by decide)⟩

/-- C9: the caller's original request object is never mutated: `__init__`
copy-constructs the supplied request into a private object with the same
field values but a different identity, and every request object written to
or passed to the call method during iteration — by the sync pager and by
the async pager alike — is that private object, never the caller's. -/
theorem C9_caller_request_never_mutated {E : Type} (method : Method E)
    (metadata : Metadata) (fuel : Nat) (request : RequestObj)
    (r0 : ListWorkflowTemplatesResponse) (freshOid : Nat)
    (hfresh : freshOid ≠ request.oid) :
    (pagerInit request r0 freshOid)._request.oid ≠ request.oid ∧
    (pagerInit request r0 freshOid)._request.val = request.val ∧
    (∀ q ∈ (pages method metadata fuel (pagerInit request r0 freshOid)).2.1,
       q.oid ≠ request.oid) ∧
    (pages method metadata fuel
        (pagerInit request r0 freshOid)).2.2.1._request.oid ≠ request.oid ∧
    (∀ q ∈ (asyncPages method metadata fuel (pagerInit request r0 freshOid)).2.1,
       q.oid ≠ request.oid) ∧
    (asyncPages method metadata fuel
        (pagerInit request r0 freshOid)).2.2.1._request.oid ≠ request.oid := by
  have hinv := pagesLoop_oid_invariant method metadata fuel
    (pagerInit request r0 freshOid)
  have hasync := asyncPagesLoop_eq_pagesLoop method metadata fuel
    (pagerInit request r0 freshOid)
  have hoid : (pagerInit request r0 freshOid)._request.oid = freshOid := rfl
  refine ⟨hfresh, rfl, ?_, ?_, ?_, ?_⟩
  · intro q hq
    have := hinv.2 q (by simpa [pages] using hq)
    rw [this, hoid]; exact hfresh
  · have := hinv.1
    simp only [pages]
    rw [this, hoid]; exact hfresh
  · intro q hq
    have := hinv.2 q (by simpa [asyncPages, hasync] using hq)
    rw [this, hoid]; exact hfresh
  · have := hinv.1
    simp only [asyncPages, hasync]
    rw [this, hoid]; exact hfresh

/-- Witness for C9: on the demo chain the caller's object id is 0, the
private copy's is 1, and every request object the run touches carries
id 1. -/
theorem C9_caller_request_never_mutated_witness :
    demoState._request.oid ≠ demoCallerReq.oid ∧
    demoState._request.val = demoCallerReq.val ∧
    ∀ q ∈ (pages demoMethod demoMetadata 5 demoState).2.1,
      q.oid ≠ demoCallerReq.oid := by
  have h := C9_caller_request_never_mutated demoMethod demoMetadata 5
    demoCallerReq demoPage1 1 (by decide)
  exact ⟨h.1, h.2.1, h.2.2.1⟩

/-- C10: each access of the `pages` property starts a new generator from
the currently held response.  After the page sequence has been fully
consumed — the held response is the chain's last, whose token is empty —
accessing `pages` again yields exactly that final response once more, calls
the method zero times, and leaves the state untouched: exhaustion does not
make a later `pages` access empty. -/
theorem C10_pages_access_restarts_from_current {E : Type} [DecidableEq E]
    (method : Method E) (metadata : Metadata) (request : RequestObj)
    (r0 : ListWorkflowTemplatesResponse) (freshOid : Nat)
    (rest : List ListWorkflowTemplatesResponse) (fuel fuel2 : Nat)
    (stF : PagerState)
    (hch : isChain method metadata request.val r0 rest = true)
    (hf : rest.length ≤ fuel)
    (hstF : stF = (pages method metadata fuel (pagerInit request r0 freshOid)).2.2.1) :
    stF._response = rest.getLastD r0 ∧
    (pages method metadata fuel2 stF).1 = [rest.getLastD r0] ∧
    (pages method metadata fuel2 stF).2.1 = [] ∧
    (pages method metadata fuel2 stF).2.2.1 = stF ∧
    (pages method metadata fuel2 stF).2.2.2 = none := by
  have hrun := pagesLoop_of_isChain method metadata request.val rest fuel
    (pagerInit request r0 freshOid) (fun t => rfl) hch hf
  simp only [pagerInit] at hrun
  have hresp : stF._response = rest.getLastD r0 := by
    rw [hstF]; simp [pages, pagerInit, hrun]
  have htok : stF._response.next_page_token = "" := by
    rw [hresp]
    exact isChain_last_token_empty method metadata request.val rest r0 hch
  have hagain := pagesLoop_empty_token method metadata fuel2 stF htok
  exact ⟨hresp, by simp [pages, hagain, hresp], by simp [pages, hagain],
    by simp [pages, hagain], by simp [pages, hagain]⟩

/-- Witness for C10: after fully consuming the demo chain the pager holds
`demoPage4`; a second `pages` access yields exactly `[demoPage4]` with an
empty call log and an unchanged state. -/
theorem C10_pages_access_restarts_from_current_witness :
    ((pages demoMethod demoMetadata 5 demoState).2.2.1)._response = demoPage4 ∧
    (pages demoMethod demoMetadata 3
        (pages demoMethod demoMetadata 5 demoState).2.2.1).1 = [demoPage4] ∧
    (pages demoMethod demoMetadata 3
        (pages demoMethod demoMetadata 5 demoState).2.2.1).2.1 = [] := by
  have h := C10_pages_access_restarts_from_current demoMethod demoMetadata
    demoCallerReq demoPage1 1 [demoPage2, demoPage3, demoPage4] 5 3
    (pages demoMethod demoMetadata 5 demoState).2.2.1
    (by decide) (by decide) rfl
  exact ⟨h.1.trans (by decide), h.2.1.trans (by decide), h.2.2.1⟩

end DataprocPagers
